import Mathlib

/-!
Verification of the DHCPv6 client in `internal/dhcp6/dhcp6.go` (router7).

The embedding models the negotiation engine: `sendReceive` (send one packet,
loop-receive until a datagram decodes, carries the sent TransactionID and the
expected message type), the orchestration operations `solicit`, `request`,
`ObtainOrRenew`, `Release`, and the config extraction inside `ObtainOrRenew`.

Modelling conventions:
* `time.Time` is an `Int` (nanoseconds); the zero `time.Time` is `0`,
  `IsZero` is `= 0`, `Before` is `<`, `Add` of a `time.Duration` is `+`.
* TransactionIDs (3 opaque bytes in Go) are `Nat`.
* The network is explicit: an exchange receives the outcome of the `WriteTo`
  call and the finite list of read outcomes delivered before the read deadline.
  Reading past that list yields the deadline-exceeded error, because the read
  deadline is set once before the loop and a blocking read must then fail with
  a timeout.
* Randomness of the external codec (`dhcpv6.NewSolicit`,
  `dhcpv6.NewRequestFromAdvertise` draw a fresh random TransactionID) is
  explicit: the freshly drawn identifier is a parameter of each exchange.
-/

namespace Dhcp6

/-- DHCPv6 message types (`dhcpv6.MessageType`); `none` is
`dhcpv6.MessageTypeNone` (the zero value). The wire type is a byte; the
constructors cover the types named in the client and the remaining RFC 8415
client/server types. -/
inductive MessageType where
  | none
  | solicit
  | advertise
  | request
  | confirm
  | renew
  | rebind
  | reply
  | release
  | decline
  | reconfigure
  | informationRequest
  | relayForward
  | relayReply
  | leaseQuery
  | leaseQueryReply
  deriving DecidableEq, Repr

/-- A delegated network block, `net.IPNet` (address bytes + mask length). -/
structure IPNet where
  addr : List Nat
  maskLen : Nat
  deriving DecidableEq, Repr

/-- A prefix-delegation identity association option (`dhcpv6.OptIAPD`):
IAID bytes, the T1/T2 renewal offsets (durations), and the delegated
prefixes carried in its sub-options (`iapd.Options.Prefixes()`, each
prefix's `Prefix` field). -/
structure IAPD where
  iaid : List Nat
  t1 : Int
  t2 : Int
  prefixes : List IPNet
  deriving DecidableEq, Repr

/-- The options of a message that the client reads or writes: the client
identifier (DUID), prefix-delegation identity associations, and the
recursive-name-server option (its addresses rendered as strings, as the
client only ever calls `String()` on them). -/
inductive Opt where
  | clientID (duid : List Nat)
  | iapd (i : IAPD)
  | dns (addrs : List String)
  deriving DecidableEq, Repr

/-- A decoded DHCPv6 message (`dhcpv6.Message`): type discriminant,
transaction identifier and option list. -/
structure Message where
  messageType : MessageType
  transactionID : Nat
  options : List Opt
  deriving DecidableEq, Repr

/-- Model of `Options.IAPD()`: all prefix-delegation associations, in option order. -/
def iapds (l : List Opt) : List IAPD :=
  l.filterMap fun o =>
    match o with
    | Opt.iapd i => some i
    | _ => Option.none

/-- Model of `Options.OneIAPD()`: the first prefix-delegation association, if any. -/
def oneIAPD (l : List Opt) : Option IAPD :=
  (iapds l).head?

/-- Model of `Options.DNS()`: the name servers of the recursive-name-server option
(the first such option), already rendered as strings. -/
def dnsAddrs (l : List Opt) : List String :=
  match l.filterMap (fun o =>
    match o with
    | Opt.dns addrs => some addrs
    | _ => Option.none) with
  | [] => []
  | addrs :: _ => addrs

/-- Model of `Message.AddOption`: append an option at the end of the option list. -/
def addOption (m : Message) (o : Opt) : Message :=
  { m with options := m.options ++ [o] }

/-- An I/O failure of the transport (`net` errors); `timeout` is the
deadline-exceeded error. -/
inductive IOError where
  | timeout
  | other (code : Nat)
  deriving DecidableEq, Repr

/-- The errors `sendReceive` and the orchestration operations surface. -/
inductive Error where
  /-- "packet to send cannot be nil" (dhcp6.go line 171). -/
  | nilPacket
  /-- a send or receive I/O failure returned verbatim. -/
  | ioError (e : IOError)
  /-- the codec rejects a nil advertise ("ADVERTISE cannot be nil" in
  `dhcpv6.NewRequestFromAdvertise`); the spec names this condition
  NoActiveLease. -/
  | advertiseNil
  /-- the codec rejects an advertise whose type is not Advertise
  ("The passed ADVERTISE must have ADVERTISE type set"). -/
  | advertiseWrongType
  deriving DecidableEq, Repr

/-- One outcome of `c.Conn.ReadFrom`: either the read itself fails, or a
datagram arrives, which then either fails `dhcpv6.MessageFromBytes` or
decodes to a message. -/
inductive ReadResult where
  | failure (e : IOError)
  | garbage
  | decoded (m : Message)
  deriving DecidableEq, Repr

/-- Lines 173–184 of dhcp6.go: when the caller passes
`dhcpv6.MessageTypeNone`, infer the expected reply type from the type of the
packet being sent; otherwise keep the caller's value. -/
def inferExpectedType (expectedType : MessageType) (packetType : MessageType) :
    MessageType :=
  if expectedType = MessageType.none then
    if packetType = MessageType.solicit then MessageType.advertise
    else if packetType = MessageType.request then MessageType.reply
    else if packetType = MessageType.relayForward then MessageType.relayReply
    else if packetType = MessageType.leaseQuery then MessageType.leaseQueryReply
    else expectedType
  else expectedType

/-- Lines 197–220 of dhcp6.go, the receive loop of `sendReceive`: read a
datagram (a failed read aborts the exchange with that error; an exhausted
stream means the next read hits the deadline, i.e. `timeout`); skip datagrams
that do not decode; skip decoded messages with a different TransactionID;
accept unconditionally when the expected type is `none`, else accept exactly
the expected type and skip the rest. -/
def recvLoop (txid : Nat) (expectedType : MessageType) :
    List ReadResult → Except Error Message
  | [] => Except.error (Error.ioError IOError.timeout)
  | ReadResult.failure e :: _ => Except.error (Error.ioError e)
  | ReadResult.garbage :: rest => recvLoop txid expectedType rest
  | ReadResult.decoded adv :: rest =>
    if txid ≠ adv.transactionID then
      recvLoop txid expectedType rest
    else if expectedType = MessageType.none then
      Except.ok adv
    else if adv.messageType = expectedType then
      Except.ok adv
    else
      recvLoop txid expectedType rest

/-- Lines 169–222 of dhcp6.go, `(*Client).sendReceive`: reject a nil packet,
infer the expected type, send the packet (a `WriteTo` error is returned
immediately), then run the receive loop. `sendErr` is the outcome of the
`WriteTo` call and `inbound` the datagrams delivered before the read
deadline. -/
def sendReceive (packet : Option Message) (expectedType : MessageType)
    (sendErr : Option IOError) (inbound : List ReadResult) :
    Except Error Message :=
  match packet with
  | Option.none => Except.error Error.nilPacket
  | Option.some p =>
    let et := inferExpectedType expectedType p.messageType
    match sendErr with
    | Option.some e => Except.error (Error.ioError e)
    | Option.none => recvLoop p.transactionID et inbound

/-- The obtained network configuration (`dhcp6.Config`). -/
structure Config where
  renewAfter : Int
  prefixes : List IPNet
  dns : List String
  deriving DecidableEq, Repr

/-- The client state the claims depend on (`dhcp6.Client`): the DUID, the
retained advertise, the held config, the latched error and the remaining
deterministic TransactionIDs. The socket, addresses and deadlines live in the
exchange environment. -/
structure Client where
  duid : List Nat
  advertise : Option Message
  cfg : Config
  err : Option Error
  transactionIDs : List Nat
  deriving DecidableEq, Repr

/-- Accessor `(*Client).Err` (lines 307–309). -/
def Client.Err (c : Client) : Option Error := c.err

/-- Accessor `(*Client).Config` (lines 311–313). -/
def Client.Config (c : Client) : Config := c.cfg

/-- The per-exchange environment: the fresh random TransactionID the codec
draws when it builds the outgoing message, the outcome of the `WriteTo` call,
and the read outcomes delivered before the read deadline. -/
structure ExchangeEnv where
  freshId : Nat
  sendErr : Option IOError
  inbound : List ReadResult
  deriving DecidableEq, Repr

/-- Model of the external codec call `dhcpv6.NewSolicit(hwaddr,
WithClientID(duid))`: a Solicit message with a freshly drawn random
TransactionID and the client identifier. (The IA_NA, elapsed-time and
option-request options the library also adds are not modelled; no claim
depends on them.) -/
def NewSolicit (freshId : Nat) (duid : List Nat) : Message :=
  { messageType := MessageType.solicit
    transactionID := freshId
    options := [Opt.clientID duid] }

/-- Model of the external codec call `dhcpv6.NewRequestFromAdvertise(adv,
WithClientID(duid))`: fails when the advertise is nil or not of type
Advertise; otherwise a Request message with a freshly drawn random
TransactionID and the client identifier. (The server-identifier and
elapsed-time options the library copies are not modelled; no claim depends
on them.) -/
def NewRequestFromAdvertise (freshId : Nat) (adv : Option Message)
    (duid : List Nat) : Except Error Message :=
  match adv with
  | Option.none => Except.error Error.advertiseNil
  | Option.some a =>
    if a.messageType ≠ MessageType.advertise then
      Except.error Error.advertiseWrongType
    else
      Except.ok
        { messageType := MessageType.request
          transactionID := freshId
          options := [Opt.clientID duid] }

/-- The pop-front stamping pattern repeated at lines 232–236, 251–255 and
298–302: while the deterministic TransactionID queue is non-empty, pop its
front and stamp it on the outgoing message; otherwise leave the message (and
its codec-drawn random TransactionID) alone. -/
def stampTxn (c : Client) (m : Message) : Client × Message :=
  match c.transactionIDs with
  | [] => (c, m)
  | id :: rest =>
    ({ c with transactionIDs := rest }, { m with transactionID := id })

/-- Lines 224–240 of dhcp6.go, `(*Client).solicit`: build a fresh Solicit
unless the caller supplied one, stamp the next deterministic TransactionID if
any, append the fixed prefix-delegation request option
`OptIAPD{IaId: [4]byte{0,0,0,1}}` unconditionally, and run the exchange with
expected type `none` (so Advertise is inferred). Returns the updated client,
the message actually sent, and the exchange result. -/
def clientSolicit (c : Client) (env : ExchangeEnv) (solArg : Option Message) :
    Client × Message × Except Error Message :=
  let sol0 :=
    match solArg with
    | Option.none => NewSolicit env.freshId c.duid
    | Option.some s => s
  let sol2 := addOption (stampTxn c sol0).2
    (Opt.iapd { iaid := [0, 0, 0, 1], t1 := 0, t2 := 0, prefixes := [] })
  ((stampTxn c sol0).1, sol2,
    sendReceive (Option.some sol2) MessageType.none env.sendErr env.inbound)

/-- Lines 242–258 of dhcp6.go, `(*Client).request`: build a Request from the
advertise via the codec (propagating its error), copy the advertise's first
prefix-delegation association into the Request if present, stamp the next
deterministic TransactionID if any, and run the exchange with expected type
`none` (so Reply is inferred). Returns the updated client, the message
actually sent (none when the codec failed), and the exchange result. -/
def clientRequest (c : Client) (env : ExchangeEnv) (adv : Option Message) :
    Client × Option Message × Except Error Message :=
  match NewRequestFromAdvertise env.freshId adv c.duid with
  | Except.error e => (c, Option.none, Except.error e)
  | Except.ok req0 =>
    let req1 :=
      match adv with
      | Option.some a =>
        match oneIAPD a.options with
        | Option.some i => addOption req0 (Opt.iapd i)
        | Option.none => req0
      | Option.none => req0
    ((stampTxn c req1).1, Option.some (stampTxn c req1).2,
      sendReceive (Option.some (stampTxn c req1).2) MessageType.none
        env.sendErr env.inbound)

/-- Lines 291–305 of dhcp6.go, `(*Client).Release`: build a Request from the
retained advertise via the codec (propagating its error — with no retained
advertise this is the codec's nil-advertise rejection, before any network
I/O), force its type to Release, stamp the next deterministic TransactionID
if any, and run the exchange with expected type `none` (Release infers no
expected type, so the first matching message is accepted). -/
def clientRelease (c : Client) (env : ExchangeEnv) :
    Client × Option Message × Except Error Message :=
  match NewRequestFromAdvertise env.freshId c.advertise c.duid with
  | Except.error e => (c, Option.none, Except.error e)
  | Except.ok rel0 =>
    let rel1 := { rel0 with messageType := MessageType.release }
    ((stampTxn c rel1).1, Option.some (stampTxn c rel1).2,
      sendReceive (Option.some (stampTxn c rel1).2) MessageType.none
        env.sendErr env.inbound)

/-- The per-association update of the config (lines 275–283 of dhcp6.go):
`t1 := now.Add(iapd.T1)`; replace `RenewAfter` when `t1` is earlier or when
`RenewAfter` is still the zero timestamp; then append the association's
delegated prefixes in order. -/
def cfgStep (now : Int) (cfg : Config) (i : IAPD) : Config :=
  let t1 := now + i.t1
  let cfg1 :=
    if t1 < cfg.renewAfter ∨ cfg.renewAfter = 0 then
      { cfg with renewAfter := t1 }
    else cfg
  { cfg1 with prefixes := cfg1.prefixes ++ i.prefixes }

/-- Lines 274–286 of dhcp6.go: fold `cfgStep` over the Reply's
prefix-delegation associations starting from the zero `Config`, then append
the name-server addresses. -/
def extractConfig (reply : Message) (now : Int) : Config :=
  let cfg := (iapds reply.options).foldl (cfgStep now) ⟨0, [], []⟩
  { cfg with dns := cfg.dns ++ dnsAddrs reply.options }

/-- The solicit step of `ObtainOrRenew`: `c.solicit(nil)` after the latched
error has been cleared. -/
def solicitStep (c : Client) (e1 : ExchangeEnv) :
    Client × Message × Except Error Message :=
  clientSolicit { c with err := Option.none } e1 Option.none

/-- The request step of `ObtainOrRenew`: `c.request(advertise)` on the
client that has retained the advertise from the solicit step. -/
def requestStep (c : Client) (e1 e2 : ExchangeEnv) (advertise : Message) :
    Client × Option Message × Except Error Message :=
  clientRequest
    { (solicitStep c e1).1 with advertise := Option.some advertise } e2
    (Option.some advertise)

/-- Lines 260–289 of dhcp6.go, `(*Client).ObtainOrRenew`: clear the latched
error; solicit (on failure latch the error and return true); retain the
advertise; request (on failure latch the error and return true); on success
extract the config from the reply and replace the held config; return true.
`now` is the value `c.timeNow()` yields during extraction. -/
def obtainOrRenew (c : Client) (now : Int) (e1 e2 : ExchangeEnv) :
    Client × Bool :=
  match (solicitStep c e1).2.2 with
  | Except.error e =>
    ({ (solicitStep c e1).1 with err := Option.some e }, true)
  | Except.ok advertise =>
    match (requestStep c e1 e2 advertise).2.2 with
    | Except.error e =>
      ({ (requestStep c e1 e2 advertise).1 with err := Option.some e }, true)
    | Except.ok reply =>
      ({ (requestStep c e1 e2 advertise).1 with
          cfg := extractConfig reply now }, true)

/-- A read outcome the receive loop discards and skips past: an undecodable
datagram, a decoded message with a different TransactionID, or (when an
expected type is in effect) a matching-TransactionID message of another
type. Read failures are not discarded — they abort the exchange. -/
def discards (txid : Nat) (expectedType : MessageType) : ReadResult → Bool
  | ReadResult.failure _ => false
  | ReadResult.garbage => true
  | ReadResult.decoded m =>
    if txid ≠ m.transactionID then true
    else if expectedType = MessageType.none then false
    else decide (m.messageType ≠ expectedType)

/-- A decoded message the receive loop accepts: matching TransactionID and,
when an expected type is in effect, exactly that type. -/
def matchesMsg (txid : Nat) (expectedType : MessageType) (m : Message) : Bool :=
  decide (m.transactionID = txid ∧
    (expectedType = MessageType.none ∨ m.messageType = expectedType))

/-- The renewal-deadline component of `cfgStep` (lines 276–279 of dhcp6.go)
in isolation: replace the accumulator when the deadline is earlier or when
the accumulator is still the zero timestamp. -/
def renewStep (now : Int) (acc : Int) (i : IAPD) : Int :=
  if now + i.t1 < acc ∨ acc = 0 then now + i.t1 else acc

/-- Following the spec's words (for comparison with `extractConfig`): the
minimum of `now + T1` over the Reply's prefix-delegation associations, and
the zero timestamp when there are none. -/
def minRenewDeadline (reply : Message) (now : Int) : Int :=
  match iapds reply.options with
  | [] => 0
  | i :: is => is.foldl (fun a j => min a (now + j.t1)) (now + i.t1)

/-- A Reply carrying two prefix-delegation associations with T1 offsets of
1 hour (3600s) and 30 minutes (1800s). -/
def replyHourHalf : Message :=
  ⟨MessageType.reply, 1,
    [Opt.iapd ⟨[0, 0, 0, 1], 3600, 5400, []⟩,
     Opt.iapd ⟨[0, 0, 0, 1], 1800, 2700, []⟩]⟩

/-- A Reply whose first prefix-delegation association yields (at `now = 0`)
the zero-timestamp deadline and whose second yields a later one. -/
def replyZeroDeadline : Message :=
  ⟨MessageType.reply, 1,
    [Opt.iapd ⟨[0, 0, 0, 1], 0, 0, []⟩,
     Opt.iapd ⟨[0, 0, 0, 1], 30, 60, []⟩]⟩

/-- The receive loop skips past any discarded read outcome. -/
theorem recvLoop_skip (txid : Nat) (et : MessageType) (r : ReadResult)
    (rest : List ReadResult) (h : discards txid et r = true) :
    recvLoop txid et (r :: rest) = recvLoop txid et rest := by
  cases r with
  | failure e => simp [discards] at h
  | garbage => rfl
  | decoded m =>
    by_cases hx : txid ≠ m.transactionID
    · simp [recvLoop, hx]
    · simp only [discards, if_neg hx] at h
      by_cases hn : et = MessageType.none
      · simp [hn] at h
      · rw [if_neg hn] at h
        have ht : m.messageType ≠ et := of_decide_eq_true h
        simp [recvLoop, hx, hn, ht]

/-- The receive loop skips past a whole prefix of discarded read outcomes. -/
theorem recvLoop_skip_discarded (txid : Nat) (et : MessageType)
    (pre rest : List ReadResult)
    (h : ∀ r ∈ pre, discards txid et r = true) :
    recvLoop txid et (pre ++ rest) = recvLoop txid et rest := by
  induction pre with
  | nil => rfl
  | cons r pre ih =>
    rw [List.cons_append, recvLoop_skip _ _ _ _ (h r (List.mem_cons_self r pre))]
    exact ih fun r' hr' => h r' (List.mem_cons_of_mem _ hr')

/-- The receive loop accepts a matching message at the head of the stream. -/
theorem recvLoop_accept (txid : Nat) (et : MessageType) (m : Message)
    (rest : List ReadResult) (h : matchesMsg txid et m = true) :
    recvLoop txid et (ReadResult.decoded m :: rest) = Except.ok m := by
  have h' := of_decide_eq_true h
  obtain ⟨h1, h2⟩ := h'
  have hx : ¬ txid ≠ m.transactionID := by simp [h1]
  cases h2 with
  | inl hn => simp [recvLoop, hx, hn]
  | inr ht =>
    by_cases hn : et = MessageType.none
    · simp [recvLoop, hx, hn]
    · simp [recvLoop, hx, hn, ht]

/-- A message returned by the receive loop carries the TransactionID to
which the loop was correlating. -/
theorem recvLoop_ok_txid (txid : Nat) (et : MessageType)
    (l : List ReadResult) (m : Message)
    (h : recvLoop txid et l = Except.ok m) : m.transactionID = txid := by
  induction l with
  | nil => simp [recvLoop] at h
  | cons r rest ih =>
    cases r with
    | failure e => simp [recvLoop] at h
    | garbage => exact ih h
    | decoded adv =>
      simp only [recvLoop] at h
      split_ifs at h with hx hn ht
      · exact ih h
      · injection h with h'
        subst h'
        push_neg at hx
        exact hx.symm
      · injection h with h'
        subst h'
        push_neg at hx
        exact hx.symm
      · exact ih h

/-- A successful receive loop run decomposes the stream into a discarded
prefix followed by the first matching message. -/
theorem recvLoop_ok_decompose (txid : Nat) (et : MessageType)
    (l : List ReadResult) (m : Message)
    (h : recvLoop txid et l = Except.ok m) :
    ∃ pre rest, l = pre ++ ReadResult.decoded m :: rest ∧
      (∀ r ∈ pre, discards txid et r = true) ∧
      matchesMsg txid et m = true := by
  induction l with
  | nil => simp [recvLoop] at h
  | cons r rest ih =>
    cases r with
    | failure e => simp [recvLoop] at h
    | garbage =>
      obtain ⟨pre, rest', hl, hpre, hm⟩ := ih h
      refine ⟨ReadResult.garbage :: pre, rest', by rw [hl]; rfl, ?_, hm⟩
      intro r' hr'
      rcases List.mem_cons.mp hr' with h1 | h1
      · subst h1; rfl
      · exact hpre r' h1
    | decoded adv =>
      simp only [recvLoop] at h
      split_ifs at h with hx hn ht
      · obtain ⟨pre, rest', hl, hpre, hm⟩ := ih h
        refine ⟨ReadResult.decoded adv :: pre, rest', by rw [hl]; rfl, ?_, hm⟩
        intro r' hr'
        rcases List.mem_cons.mp hr' with h1 | h1
        · subst h1; simp [discards, hx]
        · exact hpre r' h1
      · injection h with h'
        subst h'
        push_neg at hx
        exact ⟨[], rest, rfl, by intro r hr; simp at hr,
          decide_eq_true ⟨hx.symm, Or.inl hn⟩⟩
      · injection h with h'
        subst h'
        push_neg at hx
        exact ⟨[], rest, rfl, by intro r hr; simp at hr,
          decide_eq_true ⟨hx.symm, Or.inr ht⟩⟩
      · obtain ⟨pre, rest', hl, hpre, hm⟩ := ih h
        refine ⟨ReadResult.decoded adv :: pre, rest', by rw [hl]; rfl, ?_, hm⟩
        intro r' hr'
        rcases List.mem_cons.mp hr' with h1 | h1
        · subst h1
          simp only [discards, if_neg hx, if_neg hn]
          exact decide_eq_true ht
        · exact hpre r' h1

/-- Unfolding: `sendReceive` on a non-nil packet with no send failure is exactly the
receive loop at the packet's TransactionID and the inferred expected type. -/
theorem sendReceive_eq_recvLoop (p : Message) (et : MessageType)
    (inbound : List ReadResult) :
    sendReceive (Option.some p) et Option.none inbound =
      recvLoop p.transactionID (inferExpectedType et p.messageType) inbound := rfl

/-- C1: every exchange that returns a message returns one whose
TransactionID equals the TransactionID of the outbound packet; a message
with any other TransactionID is never returned. -/
theorem sendReceive_txid_invariant (p : Message) (et : MessageType)
    (se : Option IOError) (inbound : List ReadResult) (m : Message)
    (h : sendReceive (Option.some p) et se inbound = Except.ok m) :
    m.transactionID = p.transactionID := by
  cases se with
  | some e => simp [sendReceive] at h
  | none => exact recvLoop_ok_txid _ _ _ _ h

/-- Witness for C1 at a concrete exchange: a Solicit with TransactionID 5
answered by an Advertise with TransactionID 5. -/
theorem sendReceive_txid_invariant_witness :
    (⟨MessageType.advertise, 5, []⟩ : Message).transactionID =
      (⟨MessageType.solicit, 5, []⟩ : Message).transactionID :=
  sendReceive_txid_invariant ⟨MessageType.solicit, 5, []⟩ MessageType.none
    Option.none [ReadResult.decoded ⟨MessageType.advertise, 5, []⟩]
    ⟨MessageType.advertise, 5, []⟩ rfl

/-- C2: an exchange returns exactly the first inbound datagram that decodes,
carries the outbound TransactionID and (when an expected type is in effect)
has that type; every earlier undecodable, mismatched-TransactionID or
wrong-type datagram is discarded and the loop continues; and conversely a
returned message always sits after such a discarded prefix. -/
theorem sendReceive_first_match :
    (∀ (p : Message) (et : MessageType) (pre rest : List ReadResult)
       (m : Message),
       (∀ r ∈ pre,
         discards p.transactionID (inferExpectedType et p.messageType) r = true) →
       matchesMsg p.transactionID (inferExpectedType et p.messageType) m = true →
       sendReceive (Option.some p) et Option.none
           (pre ++ ReadResult.decoded m :: rest) = Except.ok m) ∧
    (∀ (p : Message) (et : MessageType) (l : List ReadResult) (m : Message),
       sendReceive (Option.some p) et Option.none l = Except.ok m →
       ∃ pre rest, l = pre ++ ReadResult.decoded m :: rest ∧
         (∀ r ∈ pre,
           discards p.transactionID (inferExpectedType et p.messageType) r = true) ∧
         matchesMsg p.transactionID (inferExpectedType et p.messageType) m = true) := by
  constructor
  · intro p et pre rest m hpre hm
    rw [sendReceive_eq_recvLoop, recvLoop_skip_discarded _ _ _ _ hpre]
    exact recvLoop_accept _ _ _ _ hm
  · intro p et l m h
    exact recvLoop_ok_decompose _ _ _ _ h

/-- Witness for C2 at the claim's scenario: a wrong-type matching-ID Reply,
then a mismatched-ID Advertise, then the matching Advertise; the exchange
(for a Solicit with TransactionID 5, expecting Advertise) returns the third
datagram. -/
theorem sendReceive_first_match_witness :
    sendReceive (Option.some ⟨MessageType.solicit, 5, []⟩) MessageType.none
        Option.none
        ([ReadResult.decoded ⟨MessageType.reply, 5, []⟩,
          ReadResult.decoded ⟨MessageType.advertise, 6, []⟩] ++
          ReadResult.decoded ⟨MessageType.advertise, 5, []⟩ ::
            [ReadResult.garbage]) =
      Except.ok ⟨MessageType.advertise, 5, []⟩ :=
  sendReceive_first_match.1 ⟨MessageType.solicit, 5, []⟩ MessageType.none
    [ReadResult.decoded ⟨MessageType.reply, 5, []⟩,
     ReadResult.decoded ⟨MessageType.advertise, 6, []⟩]
    [ReadResult.garbage] ⟨MessageType.advertise, 5, []⟩
    (by decide) (by decide)

/-- C3: with `expectedType = none`, the expected type is derived from the
outbound type by the fixed table Solicit→Advertise, Request→Reply,
RelayForward→RelayReply, LeaseQuery→LeaseQueryReply; every other outbound
type leaves it `none`, and then the first decoded inbound message with the
matching TransactionID is accepted whatever its type. -/
theorem sendReceive_type_inference :
    inferExpectedType MessageType.none MessageType.solicit =
      MessageType.advertise ∧
    inferExpectedType MessageType.none MessageType.request =
      MessageType.reply ∧
    inferExpectedType MessageType.none MessageType.relayForward =
      MessageType.relayReply ∧
    inferExpectedType MessageType.none MessageType.leaseQuery =
      MessageType.leaseQueryReply ∧
    (∀ t : MessageType, t ≠ MessageType.solicit → t ≠ MessageType.request →
       t ≠ MessageType.relayForward → t ≠ MessageType.leaseQuery →
       inferExpectedType MessageType.none t = MessageType.none) ∧
    (∀ (p : Message) (inbound : List ReadResult),
       sendReceive (Option.some p) MessageType.none Option.none inbound =
         recvLoop p.transactionID
           (inferExpectedType MessageType.none p.messageType) inbound) ∧
    (∀ (txid : Nat) (pre rest : List ReadResult) (m : Message),
       (∀ r ∈ pre, discards txid MessageType.none r = true) →
       m.transactionID = txid →
       recvLoop txid MessageType.none (pre ++ ReadResult.decoded m :: rest) =
         Except.ok m) := by
  refine ⟨rfl, rfl, rfl, rfl, ?_, ?_, ?_⟩
  · intro t h1 h2 h3 h4
    cases t <;> simp_all [inferExpectedType]
  · intro p inbound
    rfl
  · intro txid pre rest m hpre hm
    rw [recvLoop_skip_discarded _ _ _ _ hpre]
    exact recvLoop_accept _ _ _ _ (decide_eq_true ⟨hm, Or.inl rfl⟩)

/-- Witness for C3: a Release leaves the expected type `none`, and then a
Reply with the matching TransactionID 7 is accepted after one undecodable
datagram. -/
theorem sendReceive_type_inference_witness :
    inferExpectedType MessageType.none MessageType.release =
      MessageType.none ∧
    recvLoop 7 MessageType.none
        ([ReadResult.garbage] ++
          ReadResult.decoded ⟨MessageType.reply, 7, []⟩ :: []) =
      Except.ok ⟨MessageType.reply, 7, []⟩ :=
  ⟨sendReceive_type_inference.2.2.2.2.1 MessageType.release
      (by decide) (by decide) (by decide) (by decide),
   sendReceive_type_inference.2.2.2.2.2.2 7 [ReadResult.garbage] []
      ⟨MessageType.reply, 7, []⟩ (by decide) rfl⟩

/-- C4: when every datagram delivered before the read deadline is discarded
(undecodable, mismatched TransactionID, or wrong type), the exchange fails
with the deadline-exceeded read error; decode failures never abort the
exchange; and any read failure aborts the whole exchange immediately with
that error. -/
theorem sendReceive_timeout (p : Message) (et : MessageType) :
    (∀ inbound : List ReadResult,
       (∀ r ∈ inbound,
         discards p.transactionID (inferExpectedType et p.messageType) r = true) →
       sendReceive (Option.some p) et Option.none inbound =
         Except.error (Error.ioError IOError.timeout)) ∧
    (∀ (pre : List ReadResult) (e : IOError) (rest : List ReadResult),
       (∀ r ∈ pre,
         discards p.transactionID (inferExpectedType et p.messageType) r = true) →
       sendReceive (Option.some p) et Option.none
           (pre ++ ReadResult.failure e :: rest) =
         Except.error (Error.ioError e)) := by
  constructor
  · intro inbound h
    rw [sendReceive_eq_recvLoop, ← List.append_nil inbound,
      recvLoop_skip_discarded _ _ _ _ h]
    rfl
  · intro pre e rest h
    rw [sendReceive_eq_recvLoop, recvLoop_skip_discarded _ _ _ _ h]
    rfl

/-- Witness for C4: for a Solicit with TransactionID 5, a stream of one
undecodable datagram and one mismatched-ID message times out, and a stream
whose read fails after one discarded datagram aborts with that failure. -/
theorem sendReceive_timeout_witness :
    sendReceive (Option.some ⟨MessageType.solicit, 5, []⟩) MessageType.none
        Option.none
        [ReadResult.garbage, ReadResult.decoded ⟨MessageType.advertise, 6, []⟩] =
      Except.error (Error.ioError IOError.timeout) ∧
    sendReceive (Option.some ⟨MessageType.solicit, 5, []⟩) MessageType.none
        Option.none
        ([ReadResult.garbage] ++ ReadResult.failure (IOError.other 3) :: []) =
      Except.error (Error.ioError (IOError.other 3)) :=
  ⟨(sendReceive_timeout ⟨MessageType.solicit, 5, []⟩ MessageType.none).1
      [ReadResult.garbage, ReadResult.decoded ⟨MessageType.advertise, 6, []⟩]
      (by decide),
   (sendReceive_timeout ⟨MessageType.solicit, 5, []⟩ MessageType.none).2
      [ReadResult.garbage] (IOError.other 3) [] (by decide)⟩

/-- Stamping only consumes the front of the TransactionID queue; every other
client field is untouched. -/
theorem stampTxn_fst (c : Client) (m : Message) :
    (stampTxn c m).1 = { c with transactionIDs := c.transactionIDs.tail } := by
  cases c with
  | mk d a cf e t => cases t <;> rfl

/-- Stamping never changes the option list of the outgoing message. -/
theorem stampTxn_snd_options (c : Client) (m : Message) :
    ((stampTxn c m).2).options = m.options := by
  cases c with
  | mk d a cf e t => cases t <;> rfl

/-- The operation `solicit` only consumes the front of the TransactionID queue. -/
theorem clientSolicit_fst (c : Client) (env : ExchangeEnv)
    (solArg : Option Message) :
    (clientSolicit c env solArg).1 =
      { c with transactionIDs := c.transactionIDs.tail } :=
  stampTxn_fst c _

/-- The operation `request` only consumes the front of the TransactionID queue (and leaves
the client untouched when the codec rejects the advertise). -/
theorem clientRequest_state (c : Client) (env : ExchangeEnv)
    (adv : Option Message) :
    (clientRequest c env adv).1 = c ∨
      (clientRequest c env adv).1 =
        { c with transactionIDs := c.transactionIDs.tail } := by
  unfold clientRequest
  rcases NewRequestFromAdvertise env.freshId adv c.duid with e | req0
  · exact Or.inl rfl
  · exact Or.inr (stampTxn_fst c _)

/-- C5: each of the three top-level exchanges (solicit, request, Release)
pops exactly one identifier from the front of the deterministic
TransactionID queue while it is non-empty and stamps it on the outgoing
message; with a queue of length 2, the Solicit and Request carry the two
identifiers in order and a subsequent Release falls back to the codec's
freshly generated identifier. -/
theorem deterministic_txids :
    (∀ (c : Client) (env : ExchangeEnv) (solArg : Option Message)
       (id : Nat) (rest : List Nat),
       c.transactionIDs = id :: rest →
       (clientSolicit c env solArg).2.1.transactionID = id ∧
       (clientSolicit c env solArg).1.transactionIDs = rest) ∧
    (∀ (c : Client) (env : ExchangeEnv) (a : Message) (id : Nat)
       (rest : List Nat),
       c.transactionIDs = id :: rest →
       a.messageType = MessageType.advertise →
       ((clientRequest c env (Option.some a)).2.1).map Message.transactionID =
         Option.some id ∧
       (clientRequest c env (Option.some a)).1.transactionIDs = rest) ∧
    (∀ (c : Client) (env : ExchangeEnv) (a : Message) (id : Nat)
       (rest : List Nat),
       c.transactionIDs = id :: rest → c.advertise = Option.some a →
       a.messageType = MessageType.advertise →
       ((clientRelease c env).2.1).map Message.transactionID =
         Option.some id ∧
       (clientRelease c env).1.transactionIDs = rest) ∧
    (∀ (c : Client) (a b : Nat) (adv : Message) (e1 e2 e3 : ExchangeEnv),
       c.transactionIDs = [a, b] → c.advertise = Option.some adv →
       adv.messageType = MessageType.advertise →
       (clientSolicit c e1 Option.none).2.1.transactionID = a ∧
       ((clientRequest (clientSolicit c e1 Option.none).1 e2
           (Option.some adv)).2.1).map Message.transactionID =
         Option.some b ∧
       ((clientRelease
           (clientRequest (clientSolicit c e1 Option.none).1 e2
             (Option.some adv)).1 e3).2.1).map Message.transactionID =
         Option.some e3.freshId) := by
  have hsol : ∀ (c : Client) (env : ExchangeEnv) (solArg : Option Message)
      (id : Nat) (rest : List Nat), c.transactionIDs = id :: rest →
      (clientSolicit c env solArg).2.1.transactionID = id ∧
      (clientSolicit c env solArg).1.transactionIDs = rest := by
    intro c env solArg id rest h
    constructor
    · simp [clientSolicit, addOption, stampTxn, h]
    · simp [clientSolicit, stampTxn, h]
  have hreq : ∀ (c : Client) (env : ExchangeEnv) (a : Message) (id : Nat)
      (rest : List Nat), c.transactionIDs = id :: rest →
      a.messageType = MessageType.advertise →
      ((clientRequest c env (Option.some a)).2.1).map Message.transactionID =
        Option.some id ∧
      (clientRequest c env (Option.some a)).1.transactionIDs = rest := by
    intro c env a id rest h ht
    have hok : NewRequestFromAdvertise env.freshId (Option.some a) c.duid =
        Except.ok ⟨MessageType.request, env.freshId, [Opt.clientID c.duid]⟩ := by
      simp [NewRequestFromAdvertise, ht]
    constructor
    · simp [clientRequest, hok, stampTxn, h]
    · simp [clientRequest, hok, stampTxn, h]
  have hrel : ∀ (c : Client) (env : ExchangeEnv) (a : Message),
      c.advertise = Option.some a →
      a.messageType = MessageType.advertise →
      ((clientRelease c env).2.1).map Message.transactionID =
        Option.some (match c.transactionIDs with
          | [] => env.freshId
          | id :: _ => id) ∧
      (clientRelease c env).1.transactionIDs = c.transactionIDs.tail := by
    intro c env a ha ht
    have hok : NewRequestFromAdvertise env.freshId c.advertise c.duid =
        Except.ok ⟨MessageType.request, env.freshId, [Opt.clientID c.duid]⟩ := by
      simp [NewRequestFromAdvertise, ha, ht]
    cases hq : c.transactionIDs with
    | nil => constructor <;> simp [clientRelease, hok, stampTxn, hq]
    | cons id rest => constructor <;> simp [clientRelease, hok, stampTxn, hq]
  refine ⟨hsol, hreq, ?_, ?_⟩
  · intro c env a id rest h ha ht
    have := hrel c env a ha ht
    rw [h] at this
    exact this
  · intro c a b adv e1 e2 e3 hids hadv htyp
    have h1 := hsol c e1 Option.none a [b] hids
    have hadv1 : (clientSolicit c e1 Option.none).1.advertise = c.advertise := by
      rw [clientSolicit_fst]
    have h2 := hreq (clientSolicit c e1 Option.none).1 e2 adv b [] h1.2 htyp
    have hadv2 :
        (clientRequest (clientSolicit c e1 Option.none).1 e2
          (Option.some adv)).1.advertise = c.advertise := by
      rcases clientRequest_state (clientSolicit c e1 Option.none).1 e2
          (Option.some adv) with hc | hc
      · rw [hc, hadv1]
      · rw [hc]
        show (clientSolicit c e1 Option.none).1.advertise = c.advertise
        exact hadv1
    have h3 := hrel
      (clientRequest (clientSolicit c e1 Option.none).1 e2
        (Option.some adv)).1 e3 adv (by rw [hadv2, hadv]) htyp
    rw [h2.2] at h3
    exact ⟨h1.1, h2.1, h3.1⟩

/-- Witness for C5 at a concrete run: queue `[11, 22]`; the Solicit goes out
with TransactionID 11, the Request with 22, and the Release (queue now
empty) with the codec's fresh identifier 102. -/
theorem deterministic_txids_witness :
    (clientSolicit
        ⟨[9], Option.some ⟨MessageType.advertise, 7, []⟩, ⟨0, [], []⟩,
          Option.none, [11, 22]⟩
        ⟨100, Option.none, []⟩ Option.none).2.1.transactionID = 11 ∧
    ((clientRequest
        (clientSolicit
          ⟨[9], Option.some ⟨MessageType.advertise, 7, []⟩, ⟨0, [], []⟩,
            Option.none, [11, 22]⟩
          ⟨100, Option.none, []⟩ Option.none).1
        ⟨101, Option.none, []⟩
        (Option.some ⟨MessageType.advertise, 7, []⟩)).2.1).map
      Message.transactionID = Option.some 22 ∧
    ((clientRelease
        (clientRequest
          (clientSolicit
            ⟨[9], Option.some ⟨MessageType.advertise, 7, []⟩, ⟨0, [], []⟩,
              Option.none, [11, 22]⟩
            ⟨100, Option.none, []⟩ Option.none).1
          ⟨101, Option.none, []⟩
          (Option.some ⟨MessageType.advertise, 7, []⟩)).1
        ⟨102, Option.none, []⟩).2.1).map
      Message.transactionID = Option.some 102 :=
  deterministic_txids.2.2.2
    ⟨[9], Option.some ⟨MessageType.advertise, 7, []⟩, ⟨0, [], []⟩,
      Option.none, [11, 22]⟩
    11 22 ⟨MessageType.advertise, 7, []⟩
    ⟨100, Option.none, []⟩ ⟨101, Option.none, []⟩ ⟨102, Option.none, []⟩
    rfl rfl rfl

/-- The solicit step clears the latched error and consumes the front of the
TransactionID queue; everything else is untouched. -/
theorem solicitStep_fst (c : Client) (e1 : ExchangeEnv) :
    (solicitStep c e1).1 =
      { c with err := Option.none
               transactionIDs := c.transactionIDs.tail } :=
  clientSolicit_fst { c with err := Option.none } e1 Option.none

/-- The request step at most consumes the front of the TransactionID queue
of the advertise-retaining client. -/
theorem requestStep_state (c : Client) (e1 e2 : ExchangeEnv)
    (advertise : Message) :
    (requestStep c e1 e2 advertise).1 =
      { (solicitStep c e1).1 with advertise := Option.some advertise } ∨
    (requestStep c e1 e2 advertise).1 =
      { (solicitStep c e1).1 with
          advertise := Option.some advertise
          transactionIDs := (solicitStep c e1).1.transactionIDs.tail } :=
  clientRequest_state _ e2 (Option.some advertise)

/-- The operation `ObtainOrRenew` performs one of three runs: solicit fails and the error
is latched; solicit succeeds but the request fails and that error is
latched; or both succeed and the extracted config replaces the held one. -/
theorem obtainOrRenew_cases (c : Client) (now : Int) (e1 e2 : ExchangeEnv) :
    (∃ e, (solicitStep c e1).2.2 = Except.error e ∧
      obtainOrRenew c now e1 e2 =
        ({ (solicitStep c e1).1 with err := Option.some e }, true)) ∨
    (∃ advertise e,
      (solicitStep c e1).2.2 = Except.ok advertise ∧
      (requestStep c e1 e2 advertise).2.2 = Except.error e ∧
      obtainOrRenew c now e1 e2 =
        ({ (requestStep c e1 e2 advertise).1 with
            err := Option.some e }, true)) ∨
    (∃ advertise reply,
      (solicitStep c e1).2.2 = Except.ok advertise ∧
      (requestStep c e1 e2 advertise).2.2 = Except.ok reply ∧
      obtainOrRenew c now e1 e2 =
        ({ (requestStep c e1 e2 advertise).1 with
            cfg := extractConfig reply now }, true)) := by
  simp only [obtainOrRenew]
  rcases hs : (solicitStep c e1).2.2 with e' | advertise
  · exact Or.inl ⟨e', rfl, rfl⟩
  · dsimp only
    rcases hr : (requestStep c e1 e2 advertise).2.2 with e'' | reply
    · exact Or.inr (Or.inl ⟨advertise, e'', rfl, hr, rfl⟩)
    · exact Or.inr (Or.inr ⟨advertise, reply, rfl, hr, rfl⟩)

/-- C7: whenever `ObtainOrRenew` fails — its latched error is some failing
step's error — the previously-held `Config` is left unchanged: the value
`Config()` returns after the call is exactly the value it returned before,
with no partial overwrite, while the error is readable via `Err()`. -/
theorem obtainOrRenew_config_frame (c : Client) (now : Int)
    (e1 e2 : ExchangeEnv) (e : Error)
    (h : (obtainOrRenew c now e1 e2).1.Err = Option.some e) :
    (obtainOrRenew c now e1 e2).1.Config = c.Config := by
  rcases obtainOrRenew_cases c now e1 e2 with
    ⟨e', hs, heq⟩ | ⟨adv, e', hs, hr, heq⟩ | ⟨adv, rep, hs, hr, heq⟩
  · rw [heq]
    simp [Client.Config, solicitStep_fst]
  · rw [heq]
    rcases requestStep_state c e1 e2 adv with hc | hc <;>
      simp [Client.Config, hc, solicitStep_fst]
  · exfalso
    rw [heq] at h
    simp only [Client.Err] at h
    rcases requestStep_state c e1 e2 adv with hc | hc <;>
      simp [hc, solicitStep_fst] at h

/-- Witness for C7 at a concrete failing call: a client holding a config
with `renewAfter` 42; the solicit exchange times out (empty inbound stream),
the latched error is the timeout, and the held config is unchanged. -/
theorem obtainOrRenew_config_frame_witness :
    (obtainOrRenew
        ⟨[4], Option.none, ⟨42, [], ["a"]⟩, Option.none, []⟩ 0
        ⟨9, Option.none, []⟩ ⟨10, Option.none, []⟩).1.Err =
      Option.some (Error.ioError IOError.timeout) ∧
    (obtainOrRenew
        ⟨[4], Option.none, ⟨42, [], ["a"]⟩, Option.none, []⟩ 0
        ⟨9, Option.none, []⟩ ⟨10, Option.none, []⟩).1.Config =
      (⟨[4], Option.none, ⟨42, [], ["a"]⟩, Option.none, []⟩ : Client).Config :=
  ⟨rfl,
   obtainOrRenew_config_frame
     ⟨[4], Option.none, ⟨42, [], ["a"]⟩, Option.none, []⟩ 0
     ⟨9, Option.none, []⟩ ⟨10, Option.none, []⟩
     (Error.ioError IOError.timeout) rfl⟩

/-- C8: `ObtainOrRenew` always returns the fixed success signal `true`, for
every outcome; the latched prior error is cleared first (the result does not
depend on the error held before the call); and the real outcome is conveyed
only through `Err()`, which is `none` exactly when both the solicit step and
the request step returned a message. -/
theorem obtainOrRenew_signal :
    (∀ (c : Client) (now : Int) (e1 e2 : ExchangeEnv),
       (obtainOrRenew c now e1 e2).2 = true) ∧
    (∀ (c : Client) (now : Int) (e1 e2 : ExchangeEnv) (e0 : Option Error),
       obtainOrRenew { c with err := e0 } now e1 e2 =
         obtainOrRenew c now e1 e2) ∧
    (∀ (c : Client) (now : Int) (e1 e2 : ExchangeEnv),
       (obtainOrRenew c now e1 e2).1.Err = Option.none ↔
         ∃ advertise reply,
           (solicitStep c e1).2.2 = Except.ok advertise ∧
           (requestStep c e1 e2 advertise).2.2 = Except.ok reply) := by
  refine ⟨?_, ?_, ?_⟩
  · intro c now e1 e2
    rcases obtainOrRenew_cases c now e1 e2 with
      ⟨e', hs, heq⟩ | ⟨adv, e', hs, hr, heq⟩ | ⟨adv, rep, hs, hr, heq⟩ <;>
      rw [heq]
  · intro c now e1 e2 e0
    cases c
    rfl
  · intro c now e1 e2
    rcases obtainOrRenew_cases c now e1 e2 with
      ⟨e', hs, heq⟩ | ⟨adv, e', hs, hr, heq⟩ | ⟨adv, rep, hs, hr, heq⟩
    · rw [heq]
      constructor
      · intro hfalse
        exact absurd hfalse (by simp [Client.Err])
      · rintro ⟨adv', reply', hadv', hreply'⟩
        rw [hs] at hadv'
        exact absurd hadv' (by simp)
    · rw [heq]
      constructor
      · intro hfalse
        exact absurd hfalse (by simp [Client.Err])
      · rintro ⟨adv', reply', hadv', hreply'⟩
        rw [hs] at hadv'
        injection hadv' with hae
        subst hae
        rw [hr] at hreply'
        exact absurd hreply' (by simp)
    · rw [heq]
      have herr : (requestStep c e1 e2 adv).1.err = Option.none := by
        rcases requestStep_state c e1 e2 adv with hc | hc <;>
          simp [hc, solicitStep_fst]
      constructor
      · intro _
        exact ⟨adv, rep, hs, hr⟩
      · intro _
        simpa [Client.Err] using herr

/-- C9: with no retained Advertise (no prior successful solicit), `Release`
fails — the codec rejects the nil advertise, the condition the spec names
NoActiveLease — and performs no network I/O: the result is the same for
every exchange environment (nothing is sent, no receive is attempted) and
the client state is unchanged. -/
theorem release_no_lease (c : Client) (env : ExchangeEnv)
    (h : c.advertise = Option.none) :
    clientRelease c env = (c, Option.none, Except.error Error.advertiseNil) := by
  simp [clientRelease, NewRequestFromAdvertise, h]

/-- Witness for C9 at a concrete client with no retained Advertise: Release
returns the nil-advertise error and leaves the client untouched, for an
environment that would have delivered a matching reply. -/
theorem release_no_lease_witness :
    clientRelease ⟨[4], Option.none, ⟨0, [], []⟩, Option.none, [5]⟩
        ⟨3, Option.none, [ReadResult.decoded ⟨MessageType.reply, 5, []⟩]⟩ =
      (⟨[4], Option.none, ⟨0, [], []⟩, Option.none, [5]⟩, Option.none,
        Except.error Error.advertiseNil) :=
  release_no_lease ⟨[4], Option.none, ⟨0, [], []⟩, Option.none, [5]⟩
    ⟨3, Option.none, [ReadResult.decoded ⟨MessageType.reply, 5, []⟩]⟩ rfl

/-- C10: every solicit goes out with a prefix-delegation association option
with the fixed IAID bytes 0,0,0,1 appended unconditionally at the end of its
options — also when the caller supplied the Solicit, so one that already
carries such an option goes out with an additional one. -/
theorem solicit_appends_iapd :
    (∀ (c : Client) (env : ExchangeEnv) (sol0 : Message),
       (clientSolicit c env (Option.some sol0)).2.1.options =
         sol0.options ++ [Opt.iapd ⟨[0, 0, 0, 1], 0, 0, []⟩] ∧
       iapds (clientSolicit c env (Option.some sol0)).2.1.options =
         iapds sol0.options ++ [⟨[0, 0, 0, 1], 0, 0, []⟩]) ∧
    (∀ (c : Client) (env : ExchangeEnv),
       (clientSolicit c env Option.none).2.1.options =
         (NewSolicit env.freshId c.duid).options ++
           [Opt.iapd ⟨[0, 0, 0, 1], 0, 0, []⟩]) := by
  constructor
  · intro c env sol0
    have hopt : (clientSolicit c env (Option.some sol0)).2.1.options =
        sol0.options ++ [Opt.iapd ⟨[0, 0, 0, 1], 0, 0, []⟩] := by
      show (addOption (stampTxn c sol0).2 _).options = _
      rw [addOption, stampTxn_snd_options]
    refine ⟨hopt, ?_⟩
    rw [hopt, iapds, List.filterMap_append]
    rfl
  · intro c env
    show (addOption (stampTxn c (NewSolicit env.freshId c.duid)).2 _).options = _
    rw [addOption, stampTxn_snd_options]

/-- The step `cfgStep` updates the renewal deadline exactly as `renewStep`. -/
theorem cfgStep_renewAfter (now : Int) (cfg : Config) (i : IAPD) :
    (cfgStep now cfg i).renewAfter = renewStep now cfg.renewAfter i := by
  by_cases h : now + i.t1 < cfg.renewAfter ∨ cfg.renewAfter = 0 <;>
    simp [cfgStep, renewStep, h]

/-- The renewal deadline of the config fold is the fold of `renewStep`. -/
theorem foldl_cfgStep_renewAfter (now : Int) (l : List IAPD) :
    ∀ cfg : Config, ((l.foldl (cfgStep now) cfg).renewAfter) =
      l.foldl (renewStep now) cfg.renewAfter := by
  induction l with
  | nil => intro cfg; rfl
  | cons i is ih =>
    intro cfg
    rw [List.foldl_cons, List.foldl_cons, ih, cfgStep_renewAfter]

/-- From a non-zero accumulator, and as long as no deadline equals the zero
timestamp, the `renewStep` fold is the running minimum of the deadlines. -/
theorem foldl_renewStep_min (now : Int) (l : List IAPD) :
    ∀ acc : Int, acc ≠ 0 → (∀ i ∈ l, now + i.t1 ≠ 0) →
      l.foldl (renewStep now) acc =
        l.foldl (fun a i => min a (now + i.t1)) acc := by
  induction l with
  | nil => intro acc _ _; rfl
  | cons i is ih =>
    intro acc hacc hall
    have hi : now + i.t1 ≠ 0 := hall i (List.mem_cons_self i is)
    have hstep : renewStep now acc i = min acc (now + i.t1) := by
      rcases lt_or_ge (now + i.t1) acc with hlt | hge
      · simp [renewStep, hlt, min_eq_right (le_of_lt hlt)]
      · have hcond : ¬ (now + i.t1 < acc ∨ acc = 0) := by
          push_neg
          exact ⟨hge, hacc⟩
        simp [renewStep, hcond, min_eq_left hge]
    rw [List.foldl_cons, List.foldl_cons, hstep]
    apply ih
    · rcases min_choice acc (now + i.t1) with h | h <;> rw [h]
      · exact hacc
      · exact hi
    · intro j hj
      exact hall j (List.mem_cons_of_mem _ hj)

/-- The renewal deadline `extractConfig` computes is the `renewStep` fold
over the Reply's associations, from the zero timestamp. -/
theorem extractConfig_renewAfter (reply : Message) (now : Int) :
    (extractConfig reply now).renewAfter =
      (iapds reply.options).foldl (renewStep now) 0 :=
  foldl_cfgStep_renewAfter now (iapds reply.options) ⟨0, [], []⟩

/-- C6 counterexample: at `now = 0`, a Reply whose two associations yield
the deadlines 0 and 30 (so their minimum is the zero timestamp 0) makes
extraction produce 30, not the minimum — the zero value doubles as the
"unset" sentinel of the running minimum, so a zero deadline is overwritten
by a later, larger one. -/
theorem extract_renew_after_counterexample :
    (iapds replyZeroDeadline.options).map (fun i => (0 : Int) + i.t1) =
      [0, 30] ∧
    minRenewDeadline replyZeroDeadline 0 = 0 ∧
    (extractConfig replyZeroDeadline 0).renewAfter = 30 := by
  decide

/-- C6 (amended): provided none of the deadlines `now + T1` equals the zero
timestamp, extraction sets `RenewAfter` to their minimum over all
prefix-delegation associations of the Reply; when the Reply has no such
association, `RenewAfter` is the zero timestamp and `Prefixes` is empty;
for two associations with T1 offsets of 1 hour and 30 minutes at `now = 0`,
`RenewAfter = now + 1800s`. -/
theorem extract_renew_after_min :
    (∀ (reply : Message) (now : Int),
       (∀ i ∈ iapds reply.options, now + i.t1 ≠ 0) →
       (extractConfig reply now).renewAfter = minRenewDeadline reply now) ∧
    (∀ (reply : Message) (now : Int), iapds reply.options = [] →
       (extractConfig reply now).renewAfter = 0 ∧
       (extractConfig reply now).prefixes = []) ∧
    (extractConfig replyHourHalf 0).renewAfter = 0 + 1800 := by
  refine ⟨?_, ?_, by decide⟩
  · intro reply now h
    rw [extractConfig_renewAfter]
    simp only [minRenewDeadline]
    rcases hl : iapds reply.options with _ | ⟨i, is⟩
    · rfl
    · rw [List.foldl_cons]
      have h0 : renewStep now 0 i = now + i.t1 := by simp [renewStep]
      rw [h0]
      apply foldl_renewStep_min
      · exact h i (by rw [hl]; exact List.mem_cons_self i is)
      · intro j hj
        exact h j (by rw [hl]; exact List.mem_cons_of_mem _ hj)
  · intro reply now h
    constructor
    · rw [extractConfig_renewAfter, h]
      rfl
    · have hp : (extractConfig reply now).prefixes =
          ((iapds reply.options).foldl (cfgStep now) ⟨0, [], []⟩).prefixes := rfl
      rw [hp, h]
      rfl

/-- Witness for the amended C6 at the 1h/30min Reply: no deadline is the
zero timestamp, and extraction agrees with the spec-side minimum. -/
theorem extract_renew_after_min_witness :
    (∀ i ∈ iapds replyHourHalf.options, (0 : Int) + i.t1 ≠ 0) ∧
    (extractConfig replyHourHalf 0).renewAfter =
      minRenewDeadline replyHourHalf 0 :=
  ⟨by decide, extract_renew_after_min.1 replyHourHalf 0 (by decide)⟩

end Dhcp6
